import Mathlib

/-!
Shallow embedding of the Cart/Order Transaction Core of the Kampus Sepeti
storefront (server/storage.ts and the order/cart/address handlers of
server/routes.ts).

Modelling conventions:
* Database rows are Lean structures; each table is a `List` of rows inside
  a single `DB` state record, mirroring the relational tables.
* Row ids are natural numbers.  The database's id generation is modelled by
  the counter `DB.nextId`: every insert uses the current counter value as
  the fresh id and increments the counter.  Timestamp columns
  (`createdAt`/`updatedAt`) carry no program logic and are not modelled.
* Nullable integer columns (`products.stock`, which the TypeScript code
  guards with `!product.stock`, `product.stock || 0` and
  `typeof product.stock === 'number'`) are modelled as `Option Int`.
* Decimal price/amount strings are modelled as exact rationals `ℚ`
  (the spec calls them "decimal, string-precise").
* SQL `UPDATE ... WHERE` is a `List.map` touching every matching row;
  `SELECT ... WHERE` returning one row is `List.find?` (first match);
  `DELETE ... WHERE` is a `List.filter` keeping non-matching rows;
  `rowCount` is the number of matched rows.
* `db.transaction(cb)` commits the callback's writes when the callback
  returns and rolls every write back when it throws.  A transactional
  operation is therefore a function into `Except e (α × DB)`, and its
  committed form returns the original state in the `error` case.
* Thrown `Error` objects are modelled as the inductive types `OrderError` /
  `CartError`, whose constructors carry exactly the quantities interpolated
  into the corresponding TypeScript message strings.
-/

namespace Kampus

/-- A row of the `products` table (the fields the transaction core reads). -/
structure Product where
  id : Nat
  name : String
  price : ℚ
  stock : Option Int
  isActive : Bool
deriving DecidableEq

/-- A row of the `cart_items` table. -/
structure CartItem where
  id : Nat
  userId : Nat
  productId : Nat
  quantity : Int
deriving DecidableEq

/-- A row of the `addresses` table (the fields the default-address logic reads). -/
structure Address where
  id : Nat
  userId : Nat
  isDefault : Bool
deriving DecidableEq

/-- A row of the `orders` table. -/
structure Order where
  id : Nat
  userId : Nat
  totalAmount : ℚ
  status : String
deriving DecidableEq

/-- A row of the `order_items` table.  The row's own surrogate id carries no
program logic and is not modelled. -/
structure OrderItem where
  orderId : Nat
  productId : Nat
  quantity : Int
  price : ℚ
deriving DecidableEq

/-- The argument of `createOrder`'s first parameter (`InsertOrder`). -/
structure InsertOrder where
  userId : Nat
  totalAmount : ℚ
  status : String
deriving DecidableEq

/-- One element of `createOrder`'s `orderItemsData` argument
(`InsertOrderItem`; the `orderId` is filled in by `createOrder` itself).
The same shape is what the `POST /api/orders` route builds from each line of
the request body. -/
structure InsertOrderItem where
  productId : Nat
  quantity : Int
  price : ℚ
deriving DecidableEq

/-- The argument of `addToCart` (`InsertCartItem`). -/
structure InsertCartItem where
  userId : Nat
  productId : Nat
  quantity : Int
deriving DecidableEq

/-- The argument of `createAddress` (`InsertAddress`).  `isDefault` is an
optional boolean column (`undefined`, `false` or `true`); only `some true`
is truthy in the TypeScript guards. -/
structure InsertAddress where
  userId : Nat
  isDefault : Option Bool
deriving DecidableEq

/-- The patch argument of `updateAddress` (`Partial<InsertAddress>`).  The
only caller, `PUT /api/addresses/:id`, validates the body against
`insertAddressSchema.omit(userId)`, so the patch never carries a
`userId`; of the remaining columns only `isDefault` is read by any logic. -/
structure AddressPatch where
  isDefault : Option Bool
deriving DecidableEq

/-- Truthiness of an optional boolean column, as tested by
`if (address.isDefault)`. -/
def truthy : Option Bool → Bool
  | some true => true
  | _ => false

/-- Errors thrown by `createOrder`, with the data interpolated into the
thrown message strings (`Product ... not found` /
`Insufficient stock for product ...  Requested: ..., Available: ...`). -/
inductive OrderError where
  | productNotFound (productId : Nat)
  | insufficientStock (name : String) (requested : Int) (available : Int)
deriving DecidableEq

/-- Errors thrown by `addToCart` / `updateCartItem`, with the data
interpolated into the thrown message strings. -/
inductive CartError where
  | productNotFound
  | outOfStock
  | cannotAddExisting (requested : Int) (held : Int) (available : Int)
  | cannotAddNew (requested : Int) (available : Int)
  | cartItemNotFound
  | cannotUpdate (requested : Int) (available : Int)
deriving DecidableEq

/-- The whole database state. -/
structure DB where
  products : List Product
  cartItems : List CartItem
  addresses : List Address
  orders : List Order
  orderItems : List OrderItem
  nextId : Nat
deriving DecidableEq

/-- `SELECT * FROM products WHERE id = pid` (first row). -/
def findProduct (pid : Nat) (ps : List Product) : Option Product :=
  ps.find? (fun p => p.id == pid)

/-- `SELECT * FROM cart_items WHERE user_id = uid AND product_id = pid`
(first row). -/
def findCartLine (uid pid : Nat) (l : List CartItem) : Option CartItem :=
  l.find? (fun c => c.userId == uid && c.productId == pid)

/-! ### Address operations (DatabaseStorage.createAddress / updateAddress /
setDefaultAddress, storage.ts) -/

/-- `UPDATE addresses SET is_default = false WHERE user_id = u`. -/
def unsetFor (u : Nat) (l : List Address) : List Address :=
  l.map (fun a => if a.userId == u then { a with isDefault := false } else a)

/-- `DatabaseStorage.createAddress` (storage.ts lines 230-253): inside one
transaction, if `isDefault` is truthy unset every default of that user and
insert; otherwise insert, forcing `isDefault := true` when the user has no
addresses yet. -/
def createAddress (ins : InsertAddress) (s : DB) : Address × DB :=
  if truthy ins.isDefault then
    let cleared := unsetFor ins.userId s.addresses
    let na : Address := { id := s.nextId, userId := ins.userId, isDefault := true }
    (na, { s with addresses := cleared ++ [na], nextId := s.nextId + 1 })
  else
    let existing := s.addresses.filter (fun a => a.userId == ins.userId)
    let na : Address := { id := s.nextId, userId := ins.userId, isDefault := existing.isEmpty }
    (na, { s with addresses := s.addresses ++ [na], nextId := s.nextId + 1 })

/-- `DatabaseStorage.updateAddress` (storage.ts lines 255-283): inside one
transaction, if the patch sets `isDefault` truthy, read the target row and
unset every current default of that row's user; then apply the patch to the
rows with the given id and return the first updated row. -/
def updateAddress (id : Nat) (patch : AddressPatch) (s : DB) : Option Address × DB :=
  let step1 :=
    if truthy patch.isDefault then
      match s.addresses.find? (fun a => a.id == id) with
      | some cur =>
          s.addresses.map (fun a =>
            if a.userId == cur.userId && a.isDefault then { a with isDefault := false } else a)
      | none => s.addresses
    else s.addresses
  let step2 := step1.map (fun a =>
    if a.id == id then { a with isDefault := patch.isDefault.getD a.isDefault } else a)
  (step2.find? (fun a => a.id == id), { s with addresses := step2 })

/-- `DatabaseStorage.setDefaultAddress` (storage.ts lines 290-309): inside
one transaction, unset every default of the user, then set `isDefault` on
the rows matching both the address id and the user id; return whether that
second update touched any row.  Returning `false` commits (the transaction
only rolls back on a thrown error), so the unset step persists. -/
def setDefaultAddress (userId addressId : Nat) (s : DB) : Bool × DB :=
  let step1 := unsetFor userId s.addresses
  let matched := step1.countP (fun a => a.id == addressId && a.userId == userId)
  let step2 := step1.map (fun a =>
    if a.id == addressId && a.userId == userId then { a with isDefault := true } else a)
  (matched != 0, { s with addresses := step2 })

/-! ### Cart operations (DatabaseStorage.addToCart / updateCartItem /
removeFromCart / clearCart, storage.ts) -/

/-- `DatabaseStorage.addToCart` (storage.ts lines 325-378).  The guard
`!product.stock || product.stock <= 0` is exactly `stock.getD 0 ≤ 0`
(null and `0` are falsy, negatives fail the second disjunct).  On success
the row for `(userId, productId)` is upserted. -/
def addToCart (ci : InsertCartItem) (s : DB) : Except CartError (CartItem × DB) :=
  match findProduct ci.productId s.products with
  | none => .error .productNotFound
  | some p =>
    if p.stock.getD 0 ≤ 0 then .error .outOfStock
    else
      match findCartLine ci.userId ci.productId s.cartItems with
      | some existing =>
        let newQuantity := existing.quantity + ci.quantity
        if p.stock.getD 0 < newQuantity then
          .error (.cannotAddExisting ci.quantity existing.quantity (p.stock.getD 0))
        else
          .ok ({ existing with quantity := newQuantity },
            { s with cartItems := s.cartItems.map (fun c =>
                if c.id == existing.id then { c with quantity := newQuantity } else c) })
      | none =>
        if p.stock.getD 0 < ci.quantity then
          .error (.cannotAddNew ci.quantity (p.stock.getD 0))
        else
          let newItem : CartItem :=
            { id := s.nextId, userId := ci.userId, productId := ci.productId,
              quantity := ci.quantity }
          .ok (newItem, { s with cartItems := s.cartItems ++ [newItem],
                                 nextId := s.nextId + 1 })

/-- `DatabaseStorage.updateCartItem` (storage.ts lines 380-410): look the
cart row up together with its product, reject when the requested quantity
exceeds `product.stock || 0`, otherwise store the quantity unchanged.  No
lower bound on `quantity` is checked anywhere. -/
def updateCartItem (id : Nat) (quantity : Int) (s : DB) :
    Except CartError (Option CartItem × DB) :=
  match s.cartItems.find? (fun c => c.id == id) with
  | none => .error .cartItemNotFound
  | some c =>
    match findProduct c.productId s.products with
    | none => .error .productNotFound
    | some p =>
      if p.stock.getD 0 < quantity then
        .error (.cannotUpdate quantity (p.stock.getD 0))
      else
        let newList := s.cartItems.map (fun x =>
          if x.id == id then { x with quantity := quantity } else x)
        .ok (newList.find? (fun x => x.id == id), { s with cartItems := newList })

/-- `DatabaseStorage.clearCart` (storage.ts lines 417-420). -/
def clearCart (userId : Nat) (s : DB) : Bool × DB :=
  let removed := s.cartItems.countP (fun c => c.userId == userId)
  (removed != 0, { s with cartItems := s.cartItems.filter (fun c => !(c.userId == userId)) })

/-! ### Order operations (DatabaseStorage.createOrder / getOrders /
getOrderDetails, storage.ts) -/

/-- One iteration of `createOrder`'s validation loop: read the line's
product and re-create the guards
`if (!product)` and `if (!product.stock || product.stock < item.quantity)`
(the thrown message reports `product.stock || 0` as available). -/
def checkItem (ps : List Product) (it : InsertOrderItem) : Except OrderError Unit :=
  match findProduct it.productId ps with
  | none => .error (.productNotFound it.productId)
  | some p =>
    match p.stock with
    | none => .error (.insufficientStock p.name it.quantity 0)
    | some st =>
      if st = 0 then .error (.insufficientStock p.name it.quantity 0)
      else if st < it.quantity then .error (.insufficientStock p.name it.quantity st)
      else .ok ()

/-- `createOrder`'s validation pass over all line items (first failure wins,
no writes happen). -/
def validateAll : List InsertOrderItem → List Product → Except OrderError Unit
  | [], _ => .ok ()
  | it :: rest, ps =>
    match checkItem ps it with
    | .error e => .error e
    | .ok _ => validateAll rest ps

/-- `UPDATE products SET stock = v WHERE id = pid`. -/
def updStock (pid : Nat) (v : Int) (ps : List Product) : List Product :=
  ps.map (fun q => if q.id == pid then { q with stock := some v } else q)

/-- One iteration of `createOrder`'s stock-decrement loop: re-read the
product and, when it exists and its stock is a number
(`typeof product.stock === 'number'`), store `stock - quantity`. -/
def decrementOne (ps : List Product) (it : InsertOrderItem) : List Product :=
  match findProduct it.productId ps with
  | some p =>
    match p.stock with
    | some st => updStock it.productId (st - it.quantity) ps
    | none => ps
  | none => ps

/-- `createOrder`'s stock-decrement loop over all line items. -/
def decrementAll : List InsertOrderItem → List Product → List Product
  | [], ps => ps
  | it :: rest, ps => decrementAll rest (decrementOne ps it)

/-- The body of `DatabaseStorage.createOrder`'s transaction callback
(storage.ts lines 423-458): validation pass, insert the order header,
insert the order items with the new order id, decrement stock per line. -/
def createOrderBody (ord : InsertOrder) (items : List InsertOrderItem) (s : DB) :
    Except OrderError (Order × DB) :=
  match validateAll items s.products with
  | .error e => .error e
  | .ok _ =>
    let newOrder : Order :=
      { id := s.nextId, userId := ord.userId, totalAmount := ord.totalAmount,
        status := ord.status }
    let newItems := items.map (fun it =>
      { orderId := newOrder.id, productId := it.productId, quantity := it.quantity,
        price := it.price : OrderItem })
    .ok (newOrder,
      { s with orders := s.orders ++ [newOrder],
               orderItems := s.orderItems ++ newItems,
               products := decrementAll items s.products,
               nextId := s.nextId + 1 })

/-- `DatabaseStorage.createOrder`: the body runs inside `db.transaction`,
so a thrown error rolls every write back and the state is unchanged. -/
def createOrder (ord : InsertOrder) (items : List InsertOrderItem) (s : DB) :
    Except OrderError Order × DB :=
  match createOrderBody ord items s with
  | .ok os => (.ok os.1, os.2)
  | .error e => (.error e, s)

/-- `DatabaseStorage.getOrders` (storage.ts lines 460-506): the listed
orders (all of them, or one user's), each paired with at most the first 3
of its order items (`limit(3)`), each left-joined with its product.  The
`createdAt` ordering carries no logic about item counts and is not
modelled. -/
def getOrders (userId : Option Nat) (s : DB) :
    List (Order × List (OrderItem × Option Product)) :=
  let ordersQuery : List Order :=
    match userId with
    | some uid => s.orders.filter (fun o => o.userId == uid)
    | none => s.orders
  ordersQuery.map (fun (o : Order) =>
    (o, ((s.orderItems.filter (fun (oi : OrderItem) => oi.orderId == o.id)).take 3).map
      (fun (oi : OrderItem) => (oi, findProduct oi.productId s.products))))

/-- `DatabaseStorage.getOrderDetails` (storage.ts lines 508-545): the order
together with all of its order items (no limit). -/
def getOrderDetails (orderId : Nat) (s : DB) :
    Option (Order × List (OrderItem × Option Product)) :=
  match s.orders.find? (fun o => o.id == orderId) with
  | none => none
  | some o =>
    some (o, (s.orderItems.filter (fun oi => oi.orderId == orderId)).map
      (fun oi => (oi, findProduct oi.productId s.products)))

/-! ### Route-level handlers (routes.ts) -/

/-- The running total computed by `POST /api/orders` (routes.ts lines
441-449): `totalAmount += parseFloat(item.price) * item.quantity` over the
request's line items, starting from `0`. -/
def computeTotal (items : List InsertOrderItem) : ℚ :=
  items.foldl (fun acc it => acc + it.price * (it.quantity : ℚ)) 0

/-- The `POST /api/orders` handler (routes.ts lines 435-463): compute the
total from the caller-supplied lines, call `createOrder` with status
`pending`, and clear the user's cart only after a successful order. -/
def postOrder (uid : Nat) (items : List InsertOrderItem) (s : DB) :
    Except OrderError Order × DB :=
  match createOrder { userId := uid, totalAmount := computeTotal items, status := "pending" }
      items s with
  | (.ok o, s1) => (.ok o, (clearCart uid s1).2)
  | (.error e, s1) => (.error e, s1)

/-- The `PUT /api/cart/:id` handler (routes.ts lines 380-406): forward the
body's `quantity` unvalidated to `updateCartItem` and translate the result
into an HTTP status. -/
def putCartRoute (id : Nat) (quantity : Int) (s : DB) : Nat × DB :=
  match updateCartItem id quantity s with
  | .ok (some _, s1) => (200, s1)
  | .ok (none, s1) => (404, s1)
  | .error (.cannotUpdate _ _) => (400, s)
  | .error .cartItemNotFound => (404, s)
  | .error .productNotFound => (404, s)
  | .error _ => (500, s)

/-! ### Call sequences -/

/-- One storage-level call of the Address Default Manager. -/
inductive AddrOp where
  | create (ins : InsertAddress)
  | update (id : Nat) (patch : AddressPatch)
  | setDefault (userId : Nat) (addressId : Nat)
deriving DecidableEq

/-- Execute a sequence of address calls, keeping each call's committed
state. -/
def runAddrOps : List AddrOp → DB → DB
  | [], s => s
  | .create ins :: rest, s => runAddrOps rest (createAddress ins s).2
  | .update id patch :: rest, s => runAddrOps rest (updateAddress id patch s).2
  | .setDefault u aid :: rest, s => runAddrOps rest (setDefaultAddress u aid s).2

/-- Execute a sequence of `createOrder` calls, keeping each call's
committed state. -/
def runOrders : List (InsertOrder × List InsertOrderItem) → DB → DB
  | [], s => s
  | c :: rest, s => runOrders rest (createOrder c.1 c.2 s).2

/-- Per-user count of addresses flagged default. -/
def countDefaults (u : Nat) (l : List Address) : Nat :=
  l.countP (fun a => a.userId == u && a.isDefault)

/-- Every product row's stock (reading a null stock as 0) is non-negative. -/
def NonnegStocks (ps : List Product) : Prop :=
  ∀ p ∈ ps, 0 ≤ p.stock.getD 0

instance : DecidablePred NonnegStocks := fun ps =>
  List.decidableBAll _ ps

/-- Well-formedness of the address table: distinct row ids, all below the
id counter.  Any state reachable from the empty database satisfies this. -/
def AddrWF (s : DB) : Prop :=
  (s.addresses.map Address.id).Nodup ∧ ∀ a ∈ s.addresses, a.id < s.nextId

instance : DecidablePred AddrWF := fun s => by
  unfold AddrWF; infer_instance

/-- Bounded form of "each user has at most one default address": stated
over the owners of the rows, so that it is decidable on concrete states.
`countDefaults u l = 0` for any `u` owning no row, so this is equivalent to
the same bound for every user id. -/
def AtMostOneDefault (s : DB) : Prop :=
  ∀ a ∈ s.addresses, countDefaults a.userId s.addresses ≤ 1

instance : DecidablePred AtMostOneDefault := fun s =>
  List.decidableBAll _ s.addresses

/-! ### Concrete sample states used by witnesses and counterexamples -/

/-- One product with stock 5 and nothing else. -/
def dbA : DB :=
  { products := [{ id := 1, name := "P", price := 10, stock := some 5, isActive := true }]
    cartItems := []
    addresses := []
    orders := []
    orderItems := []
    nextId := 100 }

/-- One user (id 5) owning a single default address, no products. -/
def dbB : DB :=
  { products := []
    cartItems := []
    addresses := [{ id := 1, userId := 5, isDefault := true }]
    orders := []
    orderItems := []
    nextId := 10 }

/-- One product with stock 2 and a cart line of user 4 holding 2 of it. -/
def dbC : DB :=
  { products := [{ id := 1, name := "P", price := 10, stock := some 2, isActive := true }]
    cartItems := [{ id := 3, userId := 4, productId := 1, quantity := 2 }]
    addresses := []
    orders := []
    orderItems := []
    nextId := 50 }

/-- One order (id 1) with four order items, for comparing the two order
views. -/
def dbD : DB :=
  { products := []
    cartItems := []
    addresses := []
    orders := [{ id := 1, userId := 4, totalAmount := 4, status := "pending" }]
    orderItems := [{ orderId := 1, productId := 11, quantity := 1, price := 1 },
      { orderId := 1, productId := 12, quantity := 1, price := 1 },
      { orderId := 1, productId := 13, quantity := 1, price := 1 },
      { orderId := 1, productId := 14, quantity := 1, price := 1 }]
    nextId := 60 }

/-- A one-line order payload matching dbC's product. -/
def lineC : List InsertOrderItem := [{ productId := 1, quantity := 2, price := 10 }]

/-- The `InsertOrder` the route builds for `lineC` on behalf of user 4. -/
def ordC : InsertOrder := { userId := 4, totalAmount := computeTotal lineC, status := "pending" }

/-- The order row stored in `dbD`. -/
def orderD : Order := { id := 1, userId := 4, totalAmount := 4, status := "pending" }

/-- `dbD`'s order 1 as `getOrderDetails` renders it: all four items. -/
def detD : List (OrderItem × Option Product) :=
  (dbD.orderItems.filter (fun oi => oi.orderId == 1)).map
    (fun (oi : OrderItem) => (oi, findProduct oi.productId dbD.products))

/-- `dbD`'s order 1 as `getOrders` renders it: only the first three items. -/
def sumD : List (OrderItem × Option Product) :=
  ((dbD.orderItems.filter (fun oi => oi.orderId == 1)).take 3).map
    (fun (oi : OrderItem) => (oi, findProduct oi.productId dbD.products))

/-- Two users: user 5 owns default address 1 and plain address 2, user 6
owns default address 7. -/
def dbE : DB :=
  { products := []
    cartItems := []
    addresses := [{ id := 1, userId := 5, isDefault := true },
      { id := 2, userId := 5, isDefault := false },
      { id := 7, userId := 6, isDefault := true }]
    orders := []
    orderItems := []
    nextId := 10 }

/-! ### General list lemmas used throughout -/

/-- `find?` over a `map` whose function does not change the predicate. -/
theorem find?_map_eq {α : Type} (f : α → α) (p : α → Bool)
    (hpf : ∀ x, p (f x) = p x) (l : List α) :
    (l.map f).find? p = (l.find? p).map f := by
  induction l with
  | nil => rfl
  | cons a t ih =>
    cases hpa : p a with
    | true =>
      rw [List.map_cons, List.find?_cons_of_pos (List.map f t) ((hpf a).trans hpa),
        List.find?_cons_of_pos t hpa, Option.map_some']
    | false =>
      rw [List.map_cons, List.find?_cons_of_neg (List.map f t) (by rw [hpf a, hpa]; exact Bool.false_ne_true),
        List.find?_cons_of_neg t (by rw [hpa]; exact Bool.false_ne_true), ih]

/-- The route's running sum equals the list sum of per-line amounts. -/
theorem foldl_add_map {α : Type} (f : α → ℚ) (l : List α) (a : ℚ) :
    l.foldl (fun acc x => acc + f x) a = a + (l.map f).sum := by
  induction l generalizing a with
  | nil => simp
  | cons x t ih => rw [List.foldl_cons, ih, List.map_cons, List.sum_cons]; ring

instance {ε α : Type} [DecidableEq ε] [DecidableEq α] : DecidableEq (Except ε α) :=
  fun x y =>
    match x, y with
    | .ok a, .ok b =>
      if h : a = b then isTrue (by rw [h]) else isFalse (fun hc => by cases hc; exact h rfl)
    | .error e, .error f =>
      if h : e = f then isTrue (by rw [h]) else isFalse (fun hc => by cases hc; exact h rfl)
    | .ok _, .error _ => isFalse (fun hc => by cases hc)
    | .error _, .ok _ => isFalse (fun hc => by cases hc)

/-- The order the validation-passing run of `createOrder` inserts. -/
def newOrderOf (ord : InsertOrder) (s : DB) : Order :=
  { id := s.nextId, userId := ord.userId, totalAmount := ord.totalAmount,
    status := ord.status }

/-- The state committed by a validation-passing run of `createOrder`. -/
def orderCommit (ord : InsertOrder) (items : List InsertOrderItem) (s : DB) : DB :=
  { s with
    orders := s.orders ++ [newOrderOf ord s]
    orderItems := s.orderItems ++ items.map (fun it =>
      { orderId := s.nextId, productId := it.productId, quantity := it.quantity,
        price := it.price : OrderItem })
    products := decrementAll items s.products
    nextId := s.nextId + 1 }

/-- Evaluation of `createOrder` when the validation pass succeeds. -/
theorem createOrder_of_validate_ok (ord : InsertOrder) (items : List InsertOrderItem)
    (s : DB) (hv : validateAll items s.products = Except.ok ()) :
    createOrder ord items s = (.ok (newOrderOf ord s), orderCommit ord items s) := by
  unfold createOrder createOrderBody
  rw [hv]
  rfl

/-- Evaluation of `createOrder` when the validation pass fails. -/
theorem createOrder_of_validate_error (ord : InsertOrder) (items : List InsertOrderItem)
    (s : DB) (e : OrderError) (hv : validateAll items s.products = Except.error e) :
    createOrder ord items s = (.error e, s) := by
  unfold createOrder createOrderBody
  rw [hv]

/-- Neither branch of `createOrder` writes to the cart table. -/
theorem createOrder_cartItems_eq (ord : InsertOrder) (items : List InsertOrderItem)
    (s : DB) : ((createOrder ord items s).2).cartItems = s.cartItems := by
  cases hv : validateAll items s.products with
  | ok u =>
    cases u
    rw [createOrder_of_validate_ok ord items s hv]
    rfl
  | error e =>
    rw [createOrder_of_validate_error ord items s e hv]

/-- Claim C2: when `createOrder` fails (a line's product is missing or has
insufficient stock), the transaction rolls back and the resulting state is
exactly the state before the call: no new `Order` row, no new `OrderItem`
row, no stock decrement. -/
theorem createOrder_atomic_on_failure (ord : InsertOrder) (items : List InsertOrderItem)
    (s : DB) (e : OrderError) (s' : DB)
    (h : createOrder ord items s = (.error e, s')) : s' = s := by
  cases hv : validateAll items s.products with
  | ok u =>
    cases u
    rw [createOrder_of_validate_ok ord items s hv] at h
    cases (congrArg Prod.fst h)
  | error e2 =>
    rw [createOrder_of_validate_error ord items s e2 hv] at h
    exact (congrArg Prod.snd h).symm

/-- Witness for C2: a concrete failing call (product 99 does not exist)
leaves the concrete state untouched. -/
theorem createOrder_atomic_on_failure_witness :
    (createOrder { userId := 1, totalAmount := 0, status := "pending" }
      [{ productId := 99, quantity := 1, price := 0 }] dbB).2 = dbB :=
  createOrder_atomic_on_failure
    { userId := 1, totalAmount := 0, status := "pending" }
    [{ productId := 99, quantity := 1, price := 0 }] dbB
    (.productNotFound 99)
    (createOrder { userId := 1, totalAmount := 0, status := "pending" }
      [{ productId := 99, quantity := 1, price := 0 }] dbB).2
    (by decide)

/-- Claim C1 (code bug): from a state where every stock is non-negative
(product 1 has stock 5), one sequential `createOrder` call whose line items
mention product 1 twice with quantity 3 each passes the validation pass
(each line is checked against the pre-call stock 5) and commits, leaving
stock -1.  The spec's invariant "stock ≥ 0 at all observable times" /
"must never allow stock to go to -1" is violated by the code. -/
theorem createOrder_dup_product_negative_stock :
    NonnegStocks dbA.products ∧
    (runOrders [({ userId := 7, totalAmount := 60, status := "pending" },
      [{ productId := 1, quantity := 3, price := 10 },
       { productId := 1, quantity := 3, price := 10 }])] dbA).products.map
      (fun p => p.stock) = [some (-1)] := by decide

/-- Counterexample for C3: user 5 owns exactly one address (which is their
default, so the state satisfies the invariant), yet after the single call
`setDefaultAddress 5 99` (an address id that does not exist) the user still
owns one address but has zero defaults — not "exactly 1". -/
theorem single_default_violated_by_foreign_setDefault :
    AddrWF dbB ∧ AtMostOneDefault dbB ∧
    countDefaults 5 dbB.addresses = 1 ∧
    ((runAddrOps [AddrOp.setDefault 5 99] dbB).addresses.filter
      (fun a => a.userId == 5)).length = 1 ∧
    countDefaults 5 ((runAddrOps [AddrOp.setDefault 5 99] dbB).addresses) = 0 := by
  decide

/-- Counterexample for C4: `setDefaultAddress 5 99` on a state where
address 99 does not exist returns `false` but is not a no-op — user 5's
default flag has been cleared, because the unconditional unset step commits
(the transaction only rolls back on a thrown error). -/
theorem setDefaultAddress_not_noop_on_foreign_id :
    (setDefaultAddress 5 99 dbB).1 = false ∧
    (setDefaultAddress 5 99 dbB).2.addresses ≠ dbB.addresses := by decide

/-- Claim C8: `createOrder` never touches any user's cart rows, whether it
succeeds or fails; clearing the buyer's cart is done by the
`POST /api/orders` handler after (and only after) a successful order. -/
theorem createOrder_cart_frame :
    (∀ ord items s, ((createOrder ord items s).2).cartItems = s.cartItems) ∧
    (∀ uid items s o s', postOrder uid items s = (.ok o, s') →
      s'.cartItems = s.cartItems.filter (fun c => !(c.userId == uid))) := by
  refine ⟨fun ord items s => createOrder_cartItems_eq ord items s, ?_⟩
  intro uid items s o s' h
  unfold postOrder at h
  cases hco : createOrder { userId := uid, totalAmount := computeTotal items, status := "pending" } items s with
  | mk r s1 =>
    rw [hco] at h
    cases r with
    | error e => cases h
    | ok o1 =>
      have h2 := congrArg Prod.snd h
      simp only at h2
      have hc1 : s1.cartItems = s.cartItems := by
        have := createOrder_cartItems_eq
          { userId := uid, totalAmount := computeTotal items, status := "pending" } items s
        rw [hco] at this
        exact this
      rw [← h2]
      show (clearCart uid s1).2.cartItems = _
      unfold clearCart
      simp only
      rw [hc1]

/-- Witness for C8: a concrete successful order through the route clears
exactly user 4's cart rows. -/
theorem createOrder_cart_frame_witness :
    (postOrder 4 lineC dbC).2.cartItems = dbC.cartItems.filter (fun c => !(c.userId == 4)) :=
  createOrder_cart_frame.2 4 lineC dbC (newOrderOf ordC dbC) (postOrder 4 lineC dbC).2
    (by rfl)

/-- Claim C10: every order listed by `getOrders` carries at most the first
3 of its order items (`limit(3)`), while `getOrderDetails` returns all of
an order's items; for an order with more than 3 items the two views
disagree (the summary's item list is strictly shorter). -/
theorem getOrders_limits_items :
    (∀ uid s e, e ∈ getOrders uid s → e.2.length ≤ 3) ∧
    (∀ s oid o its, getOrderDetails oid s = some (o, its) →
      its = (s.orderItems.filter (fun oi => oi.orderId == oid)).map
        (fun (oi : OrderItem) => (oi, findProduct oi.productId s.products))) ∧
    (∀ uid s oid o its e, getOrderDetails oid s = some (o, its) →
      e ∈ getOrders uid s → e.1 = o → 3 < its.length → e.2.length < its.length) := by
  have hdet : ∀ (s : DB) (oid : Nat) (o : Order) (its : List (OrderItem × Option Product)),
      getOrderDetails oid s = some (o, its) →
      (o.id == oid) = true ∧
      its = (s.orderItems.filter (fun oi => oi.orderId == oid)).map
        (fun (oi : OrderItem) => (oi, findProduct oi.productId s.products)) := by
    intro s oid o its h
    unfold getOrderDetails at h
    cases hf : s.orders.find? (fun o => o.id == oid) with
    | none => rw [hf] at h; cases h
    | some o0 =>
      rw [hf] at h
      have hpair := Option.some.inj h
      have ho : o0 = o := congrArg Prod.fst hpair
      have hpred := List.find?_some hf
      rw [ho] at hpred
      exact ⟨hpred, (congrArg Prod.snd hpair).symm⟩
  have hsum : ∀ (uid : Option Nat) (s : DB) (e : Order × List (OrderItem × Option Product)),
      e ∈ getOrders uid s →
      e.2 = ((s.orderItems.filter (fun oi => oi.orderId == e.1.id)).take 3).map
        (fun (oi : OrderItem) => (oi, findProduct oi.productId s.products)) := by
    intro uid s e he
    unfold getOrders at he
    rw [List.mem_map] at he
    obtain ⟨o, _, rfl⟩ := he
    rfl
  refine ⟨?_, fun s oid o its h => (hdet s oid o its h).2, ?_⟩
  · intro uid s e he
    rw [hsum uid s e he, List.length_map, List.length_take]
    exact Nat.min_le_left 3 _
  · intro uid s oid o its e hd he h1 h3
    obtain ⟨hid, hits⟩ := hdet s oid o its hd
    have hoid : o.id = oid := by simpa using hid
    have hlen2 : e.2.length = min 3 its.length := by
      rw [hsum uid s e he, List.length_map, List.length_take, h1, hoid, hits,
        List.length_map]
    rw [hlen2, Nat.min_eq_left (Nat.le_of_lt h3)]
    exact h3

/-- Witness for C10: in `dbD`, order 1 has four items; the summary view
shows three of them, strictly fewer than the detail view. -/
theorem getOrders_limits_items_witness : sumD.length < detD.length :=
  getOrders_limits_items.2.2 none dbD 1 orderD detD (orderD, sumD)
    (by decide) (by decide) (by decide) (by decide)

/-- Claim C9: `updateCartItem` (and the `PUT /api/cart/:id` route, which
forwards the body's quantity unvalidated) enforces no lower bound on the
quantity: for an existing cart row whose product exists, every quantity
below the product's stock — including zero and negative values — is
accepted and persisted verbatim. -/
theorem updateCartItem_no_lower_bound :
    ∀ id q s c p, (s : DB).cartItems.find? (fun x => x.id == id) = some c →
      findProduct c.productId s.products = some p →
      q ≤ p.stock.getD 0 →
      updateCartItem id q s =
        .ok (some { c with quantity := q },
          { s with cartItems := s.cartItems.map (fun x =>
              if x.id == id then { x with quantity := q } else x) }) ∧
      { c with quantity := q } ∈ s.cartItems.map (fun x =>
        if x.id == id then { x with quantity := q } else x) ∧
      (putCartRoute id q s).1 = 200 := by
  intro id q s c p hc hp hq
  have hcid : (c.id == id) = true := by
    have hpred := List.find?_some hc
    exact hpred
  have hpf : ∀ x : CartItem,
      ((if (x.id == id) = true then { x with quantity := q } else x).id == id) =
        (x.id == id) := by
    intro x
    by_cases hxi : (x.id == id) = true
    · simp [hxi]
    · simp [hxi]
  have hfind : (s.cartItems.map (fun x =>
      if x.id == id then { x with quantity := q } else x)).find? (fun x => x.id == id) =
      some { c with quantity := q } := by
    rw [find?_map_eq (fun x => if x.id == id then { x with quantity := q } else x)
      (fun x => x.id == id) hpf s.cartItems, hc, Option.map_some']
    rw [if_pos hcid]
  have hupd : updateCartItem id q s =
      .ok (some { c with quantity := q },
        { s with cartItems := s.cartItems.map (fun x =>
            if x.id == id then { x with quantity := q } else x) }) := by
    unfold updateCartItem
    rw [hc]
    dsimp only
    rw [hp]
    dsimp only
    rw [if_neg (not_lt.mpr hq), hfind]
  refine ⟨hupd, List.mem_of_find?_eq_some hfind, ?_⟩
  unfold putCartRoute
  rw [hupd]

/-- Witness for C9: the negative quantity -4 is accepted and stored for
cart row 3 of `dbC` (stock 2), and the route answers 200. -/
theorem updateCartItem_no_lower_bound_witness :
    updateCartItem 3 (-4) dbC =
      .ok (some { id := 3, userId := 4, productId := 1, quantity := -4 },
        { dbC with cartItems := dbC.cartItems.map (fun x =>
            if x.id == 3 then { x with quantity := -4 } else x) }) ∧
    ({ id := 3, userId := 4, productId := 1, quantity := -4 } : CartItem) ∈
      dbC.cartItems.map (fun x => if x.id == 3 then { x with quantity := -4 } else x) ∧
    (putCartRoute 3 (-4) dbC).1 = 200 :=
  updateCartItem_no_lower_bound 3 (-4) dbC
    { id := 3, userId := 4, productId := 1, quantity := 2 }
    { id := 1, name := "P", price := 10, stock := some 2, isActive := true }
    (by decide) (by decide) (by decide)

/-- Claim C7: after any successful `addToCart` or `updateCartItem`, the
cart row stored by that call holds a quantity that is at most the
product's stock as read during the call (`product.stock || 0`). -/
theorem cart_quantity_bound :
    (∀ ci s item s', addToCart ci s = .ok (item, s') →
      item ∈ s'.cartItems ∧
      ∀ p, findProduct ci.productId s.products = some p →
        item.quantity ≤ p.stock.getD 0) ∧
    (∀ id q s item s', updateCartItem id q s = .ok (some item, s') →
      item ∈ s'.cartItems ∧ item.quantity = q ∧
      ∀ c p, (s : DB).cartItems.find? (fun x => x.id == id) = some c →
        findProduct c.productId s.products = some p →
        item.quantity ≤ p.stock.getD 0) := by
  constructor
  · intro ci s item s' h
    unfold addToCart at h
    cases hp : findProduct ci.productId s.products with
    | none => rw [hp] at h; cases h
    | some p0 =>
      rw [hp] at h
      dsimp only at h
      by_cases h0 : p0.stock.getD 0 ≤ 0
      · rw [if_pos h0] at h; cases h
      · rw [if_neg h0] at h
        cases hcl : findCartLine ci.userId ci.productId s.cartItems with
        | some e =>
          rw [hcl] at h
          dsimp only at h
          by_cases hlt : p0.stock.getD 0 < e.quantity + ci.quantity
          · rw [if_pos hlt] at h; cases h
          · rw [if_neg hlt] at h
            obtain ⟨hitem, hs'⟩ := Prod.mk.inj (Except.ok.inj h)
            constructor
            · rw [← hs']
              dsimp only
              rw [List.mem_map]
              refine ⟨e, List.mem_of_find?_eq_some hcl, ?_⟩
              rw [if_pos (by simp : (e.id == e.id) = true)]
              exact hitem
            · intro p hp2
              cases Option.some.inj hp2
              rw [← hitem]
              exact not_lt.mp hlt
        | none =>
          rw [hcl] at h
          dsimp only at h
          by_cases hlt : p0.stock.getD 0 < ci.quantity
          · rw [if_pos hlt] at h; cases h
          · rw [if_neg hlt] at h
            obtain ⟨hitem, hs'⟩ := Prod.mk.inj (Except.ok.inj h)
            constructor
            · rw [← hs']
              dsimp only
              rw [← hitem]
              exact List.mem_append_right _ (List.mem_singleton.mpr rfl)
            · intro p hp2
              cases Option.some.inj hp2
              rw [← hitem]
              exact not_lt.mp hlt
  · intro id q s item s' h
    unfold updateCartItem at h
    cases hc : s.cartItems.find? (fun x => x.id == id) with
    | none => rw [hc] at h; cases h
    | some c0 =>
      rw [hc] at h
      dsimp only at h
      cases hp : findProduct c0.productId s.products with
      | none => rw [hp] at h; cases h
      | some p0 =>
        rw [hp] at h
        dsimp only at h
        by_cases hlt : p0.stock.getD 0 < q
        · rw [if_pos hlt] at h; cases h
        · rw [if_neg hlt] at h
          obtain ⟨hfst, hs'⟩ := Prod.mk.inj (Except.ok.inj h)
          have hcid : (c0.id == id) = true := by
            have hpred := List.find?_some hc
            exact hpred
          have hpf : ∀ x : CartItem,
              ((if (x.id == id) = true then { x with quantity := q } else x).id == id) =
                (x.id == id) := by
            intro x
            by_cases hxi : (x.id == id) = true
            · simp [hxi]
            · simp [hxi]
          have hfind : (s.cartItems.map (fun x =>
              if x.id == id then { x with quantity := q } else x)).find?
                (fun x => x.id == id) = some { c0 with quantity := q } := by
            rw [find?_map_eq (fun x => if x.id == id then { x with quantity := q } else x)
              (fun x => x.id == id) hpf s.cartItems, hc, Option.map_some']
            rw [if_pos hcid]
          rw [hfind] at hfst
          have hitem : ({ c0 with quantity := q } : CartItem) = item := Option.some.inj hfst
          refine ⟨?_, ?_, ?_⟩
          · rw [← hs']
            dsimp only
            rw [← hitem]
            exact List.mem_of_find?_eq_some hfind
          · rw [← hitem]
          · intro c p hc2 hp2
            cases Option.some.inj hc2
            rw [hp] at hp2
            cases Option.some.inj hp2
            rw [← hitem]
            exact not_lt.mp hlt

/-- Witness for C7: adding 2 of product 1 (stock 5) to the empty cart of
`dbA` stores quantity 2 ≤ 5, and updating cart row 3 of `dbC` to -4
(stock 2) stores -4 ≤ 2. -/
theorem cart_quantity_bound_witness :
    ({ id := 100, userId := 4, productId := 1, quantity := 2 } : CartItem).quantity ≤
      ({ id := 1, name := "P", price := 10, stock := some 5, isActive := true } : Product).stock.getD 0 ∧
    ({ id := 3, userId := 4, productId := 1, quantity := -4 } : CartItem).quantity ≤
      ({ id := 1, name := "P", price := 10, stock := some 2, isActive := true } : Product).stock.getD 0 :=
  ⟨(cart_quantity_bound.1 { userId := 4, productId := 1, quantity := 2 } dbA
      { id := 100, userId := 4, productId := 1, quantity := 2 }
      { dbA with cartItems := [{ id := 100, userId := 4, productId := 1, quantity := 2 }], nextId := 101 }
      (by decide)).2
      { id := 1, name := "P", price := 10, stock := some 5, isActive := true } (by decide),
    ((cart_quantity_bound.2 3 (-4) dbC
      { id := 3, userId := 4, productId := 1, quantity := -4 }
      { dbC with cartItems := [{ id := 3, userId := 4, productId := 1, quantity := -4 }] }
      (by decide)).2).2
      { id := 3, userId := 4, productId := 1, quantity := 2 }
      { id := 1, name := "P", price := 10, stock := some 2, isActive := true }
      (by decide) (by decide)⟩

/-- Claim C6: the error behaviour of `addToCart`: `productNotFound` when
the product is missing; `outOfStock` when its stock is ≤ 0 or null; with
an existing cart line, insufficient-stock failure exactly when held +
requested exceeds the stock, reporting the requested amount, the held
amount and the available stock; without one, failure exactly when the
requested amount alone exceeds the stock; otherwise success, upserting the
one cart line. -/
theorem addToCart_error_cases :
    ∀ ci s,
      (findProduct ci.productId (s : DB).products = none →
        addToCart ci s = .error .productNotFound) ∧
      (∀ p, findProduct ci.productId s.products = some p → p.stock.getD 0 ≤ 0 →
        addToCart ci s = .error .outOfStock) ∧
      (∀ p e, findProduct ci.productId s.products = some p → 0 < p.stock.getD 0 →
        findCartLine ci.userId ci.productId s.cartItems = some e →
        ((addToCart ci s =
            .error (.cannotAddExisting ci.quantity e.quantity (p.stock.getD 0)) ↔
          p.stock.getD 0 < e.quantity + ci.quantity) ∧
        (e.quantity + ci.quantity ≤ p.stock.getD 0 →
          addToCart ci s = .ok ({ e with quantity := e.quantity + ci.quantity },
            { s with cartItems := s.cartItems.map (fun c =>
                if c.id == e.id then { c with quantity := e.quantity + ci.quantity }
                else c) })))) ∧
      (∀ p, findProduct ci.productId s.products = some p → 0 < p.stock.getD 0 →
        findCartLine ci.userId ci.productId s.cartItems = none →
        ((addToCart ci s = .error (.cannotAddNew ci.quantity (p.stock.getD 0)) ↔
          p.stock.getD 0 < ci.quantity) ∧
        (ci.quantity ≤ p.stock.getD 0 →
          addToCart ci s = .ok (
            { id := s.nextId, userId := ci.userId, productId := ci.productId, quantity := ci.quantity },
            { s with
              cartItems := s.cartItems ++ [{ id := s.nextId, userId := ci.userId, productId := ci.productId, quantity := ci.quantity }]
              nextId := s.nextId + 1 })))) := by
  intro ci s
  refine ⟨?_, ?_, ?_, ?_⟩
  · intro hp
    unfold addToCart
    rw [hp]
  · intro p hp h0
    unfold addToCart
    rw [hp]
    dsimp only
    rw [if_pos h0]
  · intro p e hp h0 hcl
    have haux : addToCart ci s =
        if p.stock.getD 0 < e.quantity + ci.quantity then
          .error (.cannotAddExisting ci.quantity e.quantity (p.stock.getD 0))
        else .ok ({ e with quantity := e.quantity + ci.quantity },
          { s with cartItems := s.cartItems.map (fun c =>
              if c.id == e.id then { c with quantity := e.quantity + ci.quantity }
              else c) }) := by
      unfold addToCart
      rw [hp]
      dsimp only
      rw [if_neg (not_le.mpr h0), hcl]
    constructor
    · rw [haux]
      constructor
      · intro heq
        by_cases hlt : p.stock.getD 0 < e.quantity + ci.quantity
        · exact hlt
        · rw [if_neg hlt] at heq; cases heq
      · intro hlt
        rw [if_pos hlt]
    · intro hle
      rw [haux, if_neg (not_lt.mpr hle)]
  · intro p hp h0 hcl
    have haux : addToCart ci s =
        if p.stock.getD 0 < ci.quantity then
          .error (.cannotAddNew ci.quantity (p.stock.getD 0))
        else .ok (
          { id := s.nextId, userId := ci.userId, productId := ci.productId, quantity := ci.quantity },
          { s with
            cartItems := s.cartItems ++ [{ id := s.nextId, userId := ci.userId, productId := ci.productId, quantity := ci.quantity }]
            nextId := s.nextId + 1 }) := by
      unfold addToCart
      rw [hp]
      dsimp only
      rw [if_neg (not_le.mpr h0), hcl]
    constructor
    · rw [haux]
      constructor
      · intro heq
        by_cases hlt : p.stock.getD 0 < ci.quantity
        · exact hlt
        · rw [if_neg hlt] at heq; cases heq
      · intro hlt
        rw [if_pos hlt]
    · intro hle
      rw [haux, if_neg (not_lt.mpr hle)]

/-- Witness for C6: in `dbB` product 99 is missing, so `addToCart` answers
`productNotFound`; in `dbC` (stock 2, user 4 already holds 2) adding one
more fails with the held amount 2 and available stock 2 reported. -/
theorem addToCart_error_cases_witness :
    addToCart { userId := 1, productId := 99, quantity := 1 } dbB =
      .error .productNotFound ∧
    addToCart { userId := 4, productId := 1, quantity := 1 } dbC =
      .error (.cannotAddExisting 1 2 2) :=
  ⟨(addToCart_error_cases { userId := 1, productId := 99, quantity := 1 } dbB).1
      (by decide),
    ((addToCart_error_cases { userId := 4, productId := 1, quantity := 1 } dbC).2.2.1
      { id := 1, name := "P", price := 10, stock := some 2, isActive := true }
      { id := 3, userId := 4, productId := 1, quantity := 2 }
      (by decide) (by decide) (by decide)).1.mpr (by decide)⟩

/-- Claim C5: an order persisted through the `POST /api/orders` path has
`totalAmount` equal to the sum of price × quantity over its `OrderItem`
rows (prices are modelled as exact rationals, so the equality is exact —
in particular within any rounding tolerance).  The hypothesis says the
pre-call order-item rows reference already-issued order ids, which holds
for every state the database can reach. -/
theorem order_total_consistency :
    ∀ uid items s o s',
      (∀ oi ∈ (s : DB).orderItems, oi.orderId < s.nextId) →
      postOrder uid items s = (.ok o, s') →
      o.totalAmount =
        ((s'.orderItems.filter (fun oi => oi.orderId == o.id)).map
          (fun oi => oi.price * (oi.quantity : ℚ))).sum := by
  intro uid items s o s' hwf h
  unfold postOrder at h
  cases hv : validateAll items s.products with
  | error e =>
    rw [createOrder_of_validate_error
      { userId := uid, totalAmount := computeTotal items, status := "pending" }
      items s e hv] at h
    dsimp only at h
    exact Except.noConfusion (Prod.mk.inj h).1
  | ok u =>
    cases u
    rw [createOrder_of_validate_ok
      { userId := uid, totalAmount := computeTotal items, status := "pending" }
      items s hv] at h
    dsimp only at h
    obtain ⟨h1, h2⟩ := Prod.mk.inj h
    have ho := Except.ok.inj h1
    rw [← h2, ← ho]
    dsimp only [newOrderOf, orderCommit, clearCart]
    have hold : s.orderItems.filter (fun oi => oi.orderId == s.nextId) = [] := by
      rw [List.filter_eq_nil_iff]
      intro oi hoi
      have hlt := hwf oi hoi
      simp only [beq_iff_eq]
      omega
    have hnew : (items.map (fun it =>
        { orderId := s.nextId, productId := it.productId, quantity := it.quantity,
          price := it.price : OrderItem })).filter (fun oi => oi.orderId == s.nextId) =
        items.map (fun it =>
        { orderId := s.nextId, productId := it.productId, quantity := it.quantity,
          price := it.price : OrderItem }) := by
      rw [List.filter_eq_self]
      intro a ha
      rw [List.mem_map] at ha
      obtain ⟨it, _, rfl⟩ := ha
      simp
    rw [List.filter_append, hold, hnew, List.nil_append, List.map_map]
    unfold computeTotal
    rw [foldl_add_map (fun it => it.price * (it.quantity : ℚ)) items 0, zero_add]
    rfl

/-- Witness for C5: the concrete order placed for `lineC` (2 × price 10)
in `dbC` has total 20, matching the sum over its persisted items. -/
theorem order_total_consistency_witness :
    (newOrderOf ordC dbC).totalAmount =
      (((postOrder 4 lineC dbC).2.orderItems.filter
        (fun oi => oi.orderId == (newOrderOf ordC dbC).id)).map
        (fun oi => oi.price * (oi.quantity : ℚ))).sum :=
  order_total_consistency 4 lineC dbC (newOrderOf ordC dbC) (postOrder 4 lineC dbC).2
    (by decide) (by rfl)

/-! ### Counting lemmas for the default-address invariant -/

/-- `countP` only depends on the predicate's values on the list. -/
theorem countP_congr' {α : Type} (p q : α → Bool) (l : List α)
    (h : ∀ a ∈ l, p a = q a) : l.countP p = l.countP q := by
  induction l with
  | nil => rfl
  | cons a t ih =>
    rw [List.countP_cons, List.countP_cons, h a (List.mem_cons_self a t),
      ih (fun b hb => h b (List.mem_cons_of_mem a hb))]

/-- `truthy` only holds of `some true`. -/
theorem truthy_iff (ob : Option Bool) : truthy ob = true ↔ ob = some true := by
  cases ob with
  | none => simp [truthy]
  | some b => cases b <;> simp [truthy]

/-- `unsetFor` keeps ids. -/
theorem unsetFor_map_id (u : Nat) (l : List Address) :
    (unsetFor u l).map Address.id = l.map Address.id := by
  unfold unsetFor
  rw [List.map_map]
  apply List.map_congr_left
  intro a _
  by_cases h : (a.userId == u) = true
  · simp [h, Function.comp]
  · simp [h, Function.comp]

/-- A row of `unsetFor u l` belonging to `u` has its default flag cleared. -/
theorem mem_unsetFor_default (u : Nat) (l : List Address) (x : Address)
    (hx : x ∈ unsetFor u l) (hu : x.userId = u) : x.isDefault = false := by
  unfold unsetFor at hx
  rw [List.mem_map] at hx
  obtain ⟨a, _, rfl⟩ := hx
  by_cases h : (a.userId == u) = true
  · rw [if_pos h]
  · rw [if_neg h] at hu ⊢
    exact absurd (by simp [hu]) h

/-- After the unconditional unset, user `u` has no default rows. -/
theorem countDefaults_unsetFor_self (u : Nat) (l : List Address) :
    countDefaults u (unsetFor u l) = 0 := by
  unfold countDefaults unsetFor
  rw [List.countP_map]
  apply List.countP_eq_zero.mpr
  intro a _
  by_cases h : (a.userId == u) = true
  · simp [Function.comp, h]
  · simp [Function.comp, if_neg h, h]

/-- The unconditional unset of user `u` leaves other users' counts alone. -/
theorem countDefaults_unsetFor_ne (u v : Nat) (hne : v ≠ u) (l : List Address) :
    countDefaults v (unsetFor u l) = countDefaults v l := by
  unfold countDefaults unsetFor
  rw [List.countP_map]
  apply countP_congr'
  intro a _
  by_cases h : a.userId = u
  · simp [Function.comp, h, Ne.symm hne]
  · simp [Function.comp, h]

/-- Every user's default count is bounded by the user's number of rows. -/
theorem countDefaults_le_rows (u : Nat) (l : List Address) :
    countDefaults u l ≤ (l.filter (fun a => a.userId == u)).length := by
  rw [← List.countP_eq_length_filter]
  exact List.countP_mono_left (fun a _ h => by rw [Bool.and_eq_true] at h; exact h.1)

/-- With distinct ids, at most one row satisfies an id-keyed predicate. -/
theorem countP_id_keyed_le_one (aid : Nat) (q : Address → Bool) (l : List Address)
    (hnd : (l.map Address.id).Nodup) :
    l.countP (fun a => a.id == aid && q a) ≤ 1 := by
  induction l with
  | nil => simp [List.countP_nil]
  | cons a t ih =>
    rw [List.map_cons, List.nodup_cons] at hnd
    rw [List.countP_cons]
    by_cases ha : (a.id == aid && q a) = true
    · have haid : a.id = aid := by
        have h1 := ha
        rw [Bool.and_eq_true] at h1
        simpa using h1.1
      have ht : t.countP (fun b => b.id == aid && q b) = 0 := by
        apply List.countP_eq_zero.mpr
        intro b hb hpred
        have hbid : b.id = aid := by
          rw [Bool.and_eq_true] at hpred
          simpa using hpred.1
        exact hnd.1 (by rw [haid, ← hbid]; exact List.mem_map_of_mem Address.id hb)
      rw [ht, if_pos ha]
    · rw [if_neg ha]
      have := ih hnd.2
      omega

/-- A map that fixes the rows of users other than `u` (and never moves a
row into or out of user `u`) does not change the rows of other users. -/
theorem filter_ne_user_map (u : Nat) (f : Address → Address)
    (hid : ∀ a, (f a).userId = a.userId)
    (hfix : ∀ a, ¬ a.userId = u → f a = a) (l : List Address) :
    (l.map f).filter (fun b => !(b.userId == u)) =
      l.filter (fun b => !(b.userId == u)) := by
  induction l with
  | nil => rfl
  | cons a t ih =>
    rw [List.map_cons, List.filter_cons, List.filter_cons]
    by_cases hu : a.userId = u
    · have h1 : (!(a.userId == u)) = false := by simp [hu]
      have h2 : (!((f a).userId == u)) = false := by simp [hid a, hu]
      rw [h1, h2, if_neg (by simp), if_neg (by simp)]
      exact ih
    · have h1 : (!(a.userId == u)) = true := by simp [hu]
      have h2 : (!((f a).userId == u)) = true := by simp [hid a, hu]
      rw [h1, h2, if_pos rfl, if_pos rfl, hfix a hu, ih]

/-- `countDefaults` distributes over append. -/
theorem countDefaults_append (u : Nat) (l1 l2 : List Address) :
    countDefaults u (l1 ++ l2) = countDefaults u l1 + countDefaults u l2 := by
  unfold countDefaults
  exact List.countP_append _ l1 l2

/-- `countDefaults` of a single row. -/
theorem countDefaults_singleton (u : Nat) (a : Address) :
    countDefaults u [a] = if (a.userId == u && a.isDefault) = true then 1 else 0 := by
  unfold countDefaults
  simp [List.countP_cons]

/-- An id-preserving row transformation keeps the id column. -/
theorem map_id_of_id_preserving (f : Address → Address)
    (hf : ∀ a, (f a).id = a.id) (l : List Address) :
    (l.map f).map Address.id = l.map Address.id := by
  rw [List.map_map]
  apply List.map_congr_left
  intro a _
  rw [Function.comp_apply, hf a]

/-- An id-preserving row transformation keeps address-table
well-formedness (distinct ids, ids below the counter). -/
theorem addr_table_wf_map (l : List Address) (n : Nat) (f : Address → Address)
    (hf : ∀ a, (f a).id = a.id)
    (hnd : (l.map Address.id).Nodup) (hb : ∀ a ∈ l, a.id < n) :
    ((l.map f).map Address.id).Nodup ∧ ∀ a ∈ l.map f, a.id < n := by
  refine ⟨by rw [map_id_of_id_preserving f hf l]; exact hnd, ?_⟩
  intro a ha
  rw [List.mem_map] at ha
  obtain ⟨b, hb2, rfl⟩ := ha
  rw [hf b]
  exact hb b hb2

/-- `unsetFor` preserves ids. -/
theorem unsetFor_id_preserving (u : Nat) :
    ∀ a : Address, ((if a.userId == u then { a with isDefault := false } else a) : Address).id = a.id := by
  intro a
  by_cases h : (a.userId == u) = true
  · rw [if_pos h]
  · rw [if_neg h]

/-- `createAddress` keeps the address table well-formed. -/
theorem createAddress_wf (ins : InsertAddress) (s : DB) (hwf : AddrWF s) :
    AddrWF (createAddress ins s).2 := by
  obtain ⟨hnd, hbound⟩ := hwf
  have hfresh : ∀ (b : Bool) (l : List Address), (l.map Address.id).Nodup →
      (∀ a ∈ l, a.id < s.nextId) →
      ((l ++ [({ id := s.nextId, userId := ins.userId, isDefault := b } : Address)]).map Address.id).Nodup ∧
      ∀ a ∈ l ++ [({ id := s.nextId, userId := ins.userId, isDefault := b } : Address)],
        a.id < s.nextId + 1 := by
    intro b l hl hbl
    constructor
    · rw [List.map_append, List.nodup_append]
      refine ⟨hl, List.nodup_singleton _, ?_⟩
      intro x hx hy
      rw [List.mem_map] at hx
      obtain ⟨a, ha, rfl⟩ := hx
      have h1 := hbl a ha
      have h2 : a.id = s.nextId := by simpa using hy
      omega
    · intro a ha
      rw [List.mem_append] at ha
      cases ha with
      | inl h => have := hbl a h; omega
      | inr h =>
        have h2 : a = { id := s.nextId, userId := ins.userId, isDefault := b } := by
          simpa using h
        rw [h2]
        show s.nextId < s.nextId + 1
        omega
  unfold createAddress
  by_cases ht : truthy ins.isDefault = true
  · rw [if_pos ht]
    dsimp only
    have h1 : ((unsetFor ins.userId s.addresses).map Address.id).Nodup := by
      rw [unsetFor_map_id]; exact hnd
    have h2 : ∀ a ∈ unsetFor ins.userId s.addresses, a.id < s.nextId := by
      intro a ha
      unfold unsetFor at ha
      rw [List.mem_map] at ha
      obtain ⟨c, hc, rfl⟩ := ha
      rw [unsetFor_id_preserving ins.userId c]
      exact hbound c hc
    exact hfresh true (unsetFor ins.userId s.addresses) h1 h2
  · rw [if_neg ht]
    dsimp only
    exact hfresh (s.addresses.filter (fun a => a.userId == ins.userId)).isEmpty s.addresses hnd hbound

/-- `setDefaultAddress` keeps the address table well-formed. -/
theorem setDefaultAddress_wf (u0 aid : Nat) (s : DB) (hwf : AddrWF s) :
    AddrWF (setDefaultAddress u0 aid s).2 := by
  obtain ⟨hnd, hbound⟩ := hwf
  unfold setDefaultAddress
  dsimp only
  have step1 := addr_table_wf_map s.addresses s.nextId _
    (unsetFor_id_preserving u0) hnd hbound
  have step2 := addr_table_wf_map (unsetFor u0 s.addresses) s.nextId
    (fun a => if a.id == aid && a.userId == u0 then { a with isDefault := true } else a)
    (by
      intro a
      by_cases h : (a.id == aid && a.userId == u0) = true
      · simp [h]
      · simp [h])
    step1.1 step1.2
  exact step2

/-- Arithmetic helper: a count bounded by one plus an indicator stays
bounded by one when the indicator can only fire on a zero count. -/
theorem add_if_le_one (n : Nat) (c : Bool) (h1 : n ≤ 1) (h2 : c = true → n = 0) :
    n + (if c = true then 1 else 0) ≤ 1 := by
  cases c with
  | false => simpa using h1
  | true => rw [h2 rfl]; simp

/-- `createAddress` keeps "each user has at most one default". -/
theorem createAddress_le_one (ins : InsertAddress) (s : DB)
    (hinv : ∀ u, countDefaults u s.addresses ≤ 1) :
    ∀ u, countDefaults u (createAddress ins s).2.addresses ≤ 1 := by
  intro u
  unfold createAddress
  by_cases ht : truthy ins.isDefault = true
  · rw [if_pos ht]
    dsimp only
    rw [countDefaults_append, countDefaults_singleton]
    by_cases hu : ins.userId = u
    · subst hu
      rw [countDefaults_unsetFor_self]
      split <;> simp
    · rw [countDefaults_unsetFor_ne ins.userId u (fun h => hu h.symm)]
      apply add_if_le_one _ _ (hinv u)
      intro hc
      rw [Bool.and_eq_true] at hc
      exact absurd (by simpa using hc.1) hu
  · rw [if_neg ht]
    dsimp only
    rw [countDefaults_append, countDefaults_singleton]
    apply add_if_le_one _ _ (hinv u)
    intro hc
    rw [Bool.and_eq_true] at hc
    have hu : ins.userId = u := by simpa using hc.1
    have hemp : (s.addresses.filter (fun a => a.userId == ins.userId)).isEmpty = true := by
      simpa using hc.2
    rw [List.isEmpty_iff] at hemp
    subst hu
    have hle := countDefaults_le_rows ins.userId s.addresses
    rw [hemp] at hle
    simpa using hle

/-- `setDefaultAddress` keeps "each user has at most one default". -/
theorem setDefaultAddress_le_one (u0 aid : Nat) (s : DB)
    (hnd : (s.addresses.map Address.id).Nodup)
    (hinv : ∀ u, countDefaults u s.addresses ≤ 1) :
    ∀ u, countDefaults u (setDefaultAddress u0 aid s).2.addresses ≤ 1 := by
  intro u
  unfold setDefaultAddress
  dsimp only
  by_cases hu : u = u0
  · subst hu
    rw [countDefaults, List.countP_map]
    have hnd1 : ((unsetFor u s.addresses).map Address.id).Nodup := by
      rw [unsetFor_map_id]
      exact hnd
    refine le_trans (List.countP_mono_left ?_)
      (countP_id_keyed_le_one aid (fun a => a.userId == u) (unsetFor u s.addresses) hnd1)
    intro x hx hpred
    simp only [Function.comp_apply] at hpred
    by_cases hc : (x.id == aid && x.userId == u) = true
    · exact hc
    · rw [if_neg hc] at hpred
      rw [Bool.and_eq_true] at hpred
      have hxu : x.userId = u := by simpa using hpred.1
      have hfalse := mem_unsetFor_default u s.addresses x hx hxu
      rw [hfalse] at hpred
      exact absurd hpred.2 (by simp)
  · have hne : u0 ≠ u := fun h => hu h.symm
    have hinv' : List.countP (fun a => a.userId == u && a.isDefault) s.addresses ≤ 1 := hinv u
    rw [countDefaults, unsetFor, List.countP_map, List.countP_map]
    refine le_trans (le_of_eq (countP_congr' _ (fun a => a.userId == u && a.isDefault) _ ?_))
      hinv'
    intro a _
    by_cases ha : (a.userId == u0) = true
    · have hau : a.userId = u0 := by simpa using ha
      by_cases hid2 : (a.id == aid) = true
      · simp [Function.comp, ha, hid2, hau, hne]
      · simp [Function.comp, ha, hid2, hau, hne]
    · simp [Function.comp, ha]

/-- `updateAddress` keeps the address table well-formed. -/
theorem updateAddress_wf (id : Nat) (patch : AddressPatch) (s : DB) (hwf : AddrWF s) :
    AddrWF (updateAddress id patch s).2 := by
  obtain ⟨hnd, hbound⟩ := hwf
  unfold updateAddress
  dsimp only
  have hg2 : ∀ a : Address,
      ((if a.id == id then { a with isDefault := patch.isDefault.getD a.isDefault } else a) :
        Address).id = a.id := by
    intro a
    by_cases h : (a.id == id) = true
    · simp [h]
    · simp [h]
  by_cases ht : truthy patch.isDefault = true
  · rw [if_pos ht]
    cases hf : s.addresses.find? (fun a => a.id == id) with
    | none =>
      exact addr_table_wf_map s.addresses s.nextId _ hg2 hnd hbound
    | some cur =>
      have hf1 : ∀ a : Address,
          ((if a.userId == cur.userId && a.isDefault then { a with isDefault := false } else a) :
            Address).id = a.id := by
        intro a
        by_cases h : (a.userId == cur.userId && a.isDefault) = true
        · simp [h]
        · simp [h]
      have hstep1 := addr_table_wf_map s.addresses s.nextId _ hf1 hnd hbound
      exact addr_table_wf_map _ s.nextId _ hg2 hstep1.1 hstep1.2
  · rw [if_neg ht]
    exact addr_table_wf_map s.addresses s.nextId _ hg2 hnd hbound

/-- `updateAddress` keeps "each user has at most one default". -/
theorem updateAddress_le_one (id : Nat) (patch : AddressPatch) (s : DB)
    (hnd : (s.addresses.map Address.id).Nodup)
    (hinv : ∀ u, countDefaults u s.addresses ≤ 1) :
    ∀ u, countDefaults u (updateAddress id patch s).2.addresses ≤ 1 := by
  intro u
  have hinv' : List.countP (fun a => a.userId == u && a.isDefault) s.addresses ≤ 1 := hinv u
  unfold updateAddress
  dsimp only
  by_cases ht : truthy patch.isDefault = true
  · rw [if_pos ht]
    have hpt : patch.isDefault = some true := (truthy_iff patch.isDefault).mp ht
    cases hf : s.addresses.find? (fun a => a.id == id) with
    | none =>
      have hnone := List.find?_eq_none.mp hf
      rw [countDefaults, List.countP_map]
      refine le_trans (le_of_eq (countP_congr' _ (fun a => a.userId == u && a.isDefault) _ ?_))
        hinv'
      intro a ha
      have hid : (a.id == id) = false :=
        Bool.eq_false_iff.mpr (fun hh => hnone a ha hh)
      simp [Function.comp, hid]
    | some cur =>
      have hcur_mem := List.mem_of_find?_eq_some hf
      have hcur_id : cur.id = id := by
        have hp := List.find?_some hf
        simpa using hp
      by_cases hu : u = cur.userId
      · subst hu
        rw [countDefaults, List.countP_map]
        have hnd1 : ((s.addresses.map (fun a =>
            if a.userId == cur.userId && a.isDefault then { a with isDefault := false }
            else a)).map Address.id).Nodup := by
          rw [map_id_of_id_preserving]
          · exact hnd
          · intro a
            by_cases h : (a.userId == cur.userId && a.isDefault) = true
            · simp [h]
            · simp [h]
        refine le_trans (List.countP_mono_left ?_)
          (countP_id_keyed_le_one id (fun a => a.userId == cur.userId) _ hnd1)
        intro x hx hpred
        simp only [Function.comp_apply] at hpred
        by_cases hxid : (x.id == id) = true
        · rw [if_pos hxid, hpt] at hpred
          rw [Bool.and_eq_true]
          refine ⟨hxid, ?_⟩
          rw [Bool.and_eq_true] at hpred
          exact hpred.1
        · rw [if_neg hxid] at hpred
          rw [Bool.and_eq_true] at hpred
          have hxu : x.userId = cur.userId := by simpa using hpred.1
          rw [List.mem_map] at hx
          obtain ⟨a, ha, rfl⟩ := hx
          by_cases hcnd : (a.userId == cur.userId && a.isDefault) = true
          · rw [if_pos hcnd] at hpred
            exact absurd hpred.2 (by simp)
          · rw [if_neg hcnd] at hpred hxu
            exact absurd (by rw [Bool.and_eq_true]; exact ⟨by simp [hxu], hpred.2⟩) hcnd
      · have hne : cur.userId ≠ u := fun h => hu h.symm
        rw [countDefaults, List.countP_map, List.countP_map]
        refine le_trans (le_of_eq (countP_congr' _ (fun a => a.userId == u && a.isDefault) _ ?_))
          hinv'
        intro a ha
        by_cases hau : (a.userId == cur.userId) = true
        · have hau' : a.userId = cur.userId := by simpa using hau
          have hcu : (cur.userId == u) = false := by simp [hne]
          by_cases had : a.isDefault = true
          · by_cases haid : a.id = id
            · simp [Function.comp, hau', had, haid, hpt, hcu]
            · simp [Function.comp, hau', had, haid, hcu]
          · by_cases haid : a.id = id
            · simp [Function.comp, hau', had, haid, hpt, hcu]
            · simp [Function.comp, hau', had, haid, hcu]
        · have hcnd : (a.userId == cur.userId && a.isDefault) = false := by
            apply Bool.eq_false_iff.mpr
            intro hcc
            rw [Bool.and_eq_true] at hcc
            rw [hcc.1] at hau
            exact hau rfl
          have haid : (a.id == id) = false := by
            apply Bool.eq_false_iff.mpr
            intro hii
            have hii' : a.id = id := by simpa using hii
            have hac : a = cur :=
              List.inj_on_of_nodup_map hnd ha hcur_mem (by rw [hii', hcur_id])
            rw [hac] at hau
            exact hau (by simp)
          simp [Function.comp, hcnd, haid]
  · rw [if_neg ht]
    rw [countDefaults, List.countP_map]
    refine le_trans (List.countP_mono_left ?_) hinv'
    intro x _ hpred
    simp only [Function.comp_apply] at hpred
    by_cases hxid : (x.id == id) = true
    · rw [if_pos hxid] at hpred
      cases hpd : patch.isDefault with
      | none =>
        rw [hpd] at hpred
        exact hpred
      | some b =>
        cases b with
        | true => exact absurd ((truthy_iff patch.isDefault).mpr hpd) ht
        | false =>
          rw [hpd] at hpred
          simp at hpred
    · rw [if_neg hxid] at hpred
      exact hpred

/-- The bounded decidable invariant gives the bound for every user id. -/
theorem atMostOneDefault_all (s : DB) (h : AtMostOneDefault s) :
    ∀ u, countDefaults u s.addresses ≤ 1 := by
  intro u
  by_cases he : ∃ a ∈ s.addresses, a.userId = u
  · obtain ⟨a, ha, hu⟩ := he
    have hb := h a ha
    rwa [hu] at hb
  · have h0 : countDefaults u s.addresses = 0 := by
      unfold countDefaults
      apply List.countP_eq_zero.mpr
      intro a ha hpred
      rw [Bool.and_eq_true] at hpred
      exact he ⟨a, ha, by simpa using hpred.1⟩
    omega

/-- Any sequence of address calls preserves well-formedness and the
at-most-one-default bound. -/
theorem runAddrOps_inv (ops : List AddrOp) : ∀ s : DB, AddrWF s →
    (∀ u, countDefaults u s.addresses ≤ 1) →
    AddrWF (runAddrOps ops s) ∧
      ∀ u, countDefaults u (runAddrOps ops s).addresses ≤ 1 := by
  induction ops with
  | nil => intro s h1 h2; exact ⟨h1, h2⟩
  | cons op rest ih =>
    intro s h1 h2
    cases op with
    | create ins =>
      exact ih _ (createAddress_wf ins s h1) (createAddress_le_one ins s h2)
    | update id patch =>
      exact ih _ (updateAddress_wf id patch s h1) (updateAddress_le_one id patch s h1.1 h2)
    | setDefault u0 aid =>
      exact ih _ (setDefaultAddress_wf u0 aid s h1) (setDefaultAddress_le_one u0 aid s h1.1 h2)

/-- Claim C3 (amended): starting from a well-formed state in which each
user has at most one default address (e.g. any state the code can reach
from an empty table), after any sequence of
`createAddress`/`updateAddress`/`setDefaultAddress` calls — including calls
naming addresses that do not belong to the user — each user's number of
default addresses is at most 1, and exactly 0 when the user has no
addresses.  ("Exactly 1 whenever the user has an address" is false:
see the counterexample, where a failed `setDefaultAddress` leaves 0.) -/
theorem at_most_one_default_address (ops : List AddrOp) (s : DB) (u : Nat)
    (hwf : AddrWF s) (hone : AtMostOneDefault s) :
    countDefaults u (runAddrOps ops s).addresses ≤ 1 ∧
    ((runAddrOps ops s).addresses.filter (fun a => a.userId == u) = [] →
      countDefaults u (runAddrOps ops s).addresses = 0) := by
  have h := runAddrOps_inv ops s hwf (atMostOneDefault_all s hone)
  refine ⟨h.2 u, ?_⟩
  intro hnil
  have hle := countDefaults_le_rows u (runAddrOps ops s).addresses
  rw [hnil] at hle
  simpa using hle

/-- Witness for C3 (amended): after a mixed concrete call sequence on
`dbE` — creating an address, a failed foreign `setDefaultAddress`, and a
default-setting update — user 5 still has at most one default. -/
theorem at_most_one_default_address_witness :
    countDefaults 5 ((runAddrOps [AddrOp.create { userId := 7, isDefault := none },
      AddrOp.setDefault 5 99, AddrOp.update 1 { isDefault := some true }] dbE).addresses) ≤ 1 :=
  (at_most_one_default_address
    [AddrOp.create { userId := 7, isDefault := none },
      AddrOp.setDefault 5 99, AddrOp.update 1 { isDefault := some true }] dbE 5
    (by decide) (by decide)).1

/-- Claim C4 (amended): `setDefaultAddress(userId, addressId)` returns
`true` exactly when the address exists and belongs to the user, and then
makes exactly that address the user's default; when it does not belong it
returns `false`, but it is NOT a no-op: the unconditional first update has
already cleared `isDefault` on all of the user's addresses and that write
commits (the transaction only rolls back on a thrown error).  Rows of
other users are never touched. -/
theorem setDefaultAddress_behavior :
    ∀ u0 aid s,
      ((setDefaultAddress u0 aid (s : DB)).1 = true ↔
        ∃ a ∈ s.addresses, a.id = aid ∧ a.userId = u0) ∧
      ((¬ ∃ a ∈ s.addresses, a.id = aid ∧ a.userId = u0) →
        (setDefaultAddress u0 aid s).1 = false ∧
        (setDefaultAddress u0 aid s).2.addresses = unsetFor u0 s.addresses) ∧
      (∀ b ∈ (setDefaultAddress u0 aid s).2.addresses, b.userId = u0 →
        (b.isDefault = true ↔ b.id = aid)) ∧
      ((setDefaultAddress u0 aid s).2.addresses.filter (fun b => !(b.userId == u0)) =
        s.addresses.filter (fun b => !(b.userId == u0))) := by
  intro u0 aid s
  have hcount : (unsetFor u0 s.addresses).countP (fun a => a.id == aid && a.userId == u0) =
      s.addresses.countP (fun a => a.id == aid && a.userId == u0) := by
    unfold unsetFor
    rw [List.countP_map]
    apply countP_congr'
    intro a _
    by_cases h : (a.userId == u0) = true
    · simp [Function.comp, h]
    · simp [Function.comp, h]
  have hfst : (setDefaultAddress u0 aid s).1 = true ↔
      ∃ a ∈ s.addresses, a.id = aid ∧ a.userId = u0 := by
    unfold setDefaultAddress
    dsimp only
    rw [hcount, bne_iff_ne]
    constructor
    · intro hb
      by_contra hne
      apply hb
      apply List.countP_eq_zero.mpr
      intro a ha hpred
      rw [Bool.and_eq_true] at hpred
      exact hne ⟨a, ha, by simpa using hpred.1, by simpa using hpred.2⟩
    · rintro ⟨a, ha, h1, h2⟩ h0
      have hz := List.countP_eq_zero.mp h0 a ha
      apply hz
      rw [Bool.and_eq_true]
      exact ⟨by simp [h1], by simp [h2]⟩
  have hnb : (¬ ∃ a ∈ s.addresses, a.id = aid ∧ a.userId = u0) →
      (setDefaultAddress u0 aid s).1 = false ∧
      (setDefaultAddress u0 aid s).2.addresses = unsetFor u0 s.addresses := by
    intro hne
    constructor
    · cases hv : (setDefaultAddress u0 aid s).1 with
      | false => rfl
      | true => exact absurd (hfst.mp hv) hne
    · unfold setDefaultAddress
      dsimp only
      have hall : ∀ x ∈ unsetFor u0 s.addresses, (x.id == aid && x.userId == u0) = false := by
        intro x hx
        apply Bool.eq_false_iff.mpr
        intro hp
        unfold unsetFor at hx
        rw [List.mem_map] at hx
        obtain ⟨b, hb, rfl⟩ := hx
        apply hne
        by_cases h : (b.userId == u0) = true
        · rw [if_pos h, Bool.and_eq_true] at hp
          exact ⟨b, hb, by simpa using hp.1, by simpa using h⟩
        · rw [if_neg h, Bool.and_eq_true] at hp
          exact ⟨b, hb, by simpa using hp.1, by simpa using hp.2⟩
      have hmapid : (unsetFor u0 s.addresses).map (fun a =>
          if a.id == aid && a.userId == u0 then { a with isDefault := true } else a) =
          (unsetFor u0 s.addresses).map (fun a => a) :=
        List.map_congr_left (fun x hx => by simp [hall x hx])
      rw [hmapid, List.map_id']
  have hdef : ∀ b ∈ (setDefaultAddress u0 aid s).2.addresses, b.userId = u0 →
      (b.isDefault = true ↔ b.id = aid) := by
    intro b hb hbu
    unfold setDefaultAddress at hb hbu
    dsimp only at hb hbu
    rw [List.mem_map] at hb
    obtain ⟨x, hx, rfl⟩ := hb
    by_cases hc : (x.id == aid && x.userId == u0) = true
    · rw [if_pos hc]
      have hxid : x.id = aid := by
        rw [Bool.and_eq_true] at hc
        simpa using hc.1
      simp [hxid]
    · rw [if_neg hc] at hbu ⊢
      have hxdef : x.isDefault = false := mem_unsetFor_default u0 s.addresses x hx hbu
      constructor
      · intro hd
        rw [hxdef] at hd
        cases hd
      · intro hid
        exfalso
        apply hc
        rw [Bool.and_eq_true]
        exact ⟨by simp [hid], by simp [hbu]⟩
  have hother : (setDefaultAddress u0 aid s).2.addresses.filter (fun b => !(b.userId == u0)) =
      s.addresses.filter (fun b => !(b.userId == u0)) := by
    unfold setDefaultAddress
    dsimp only
    rw [filter_ne_user_map u0 _
      (by
        intro a
        by_cases h : (a.id == aid && a.userId == u0) = true
        · simp [h]
        · simp [h])
      (by
        intro a ha
        apply if_neg
        intro hcc
        rw [Bool.and_eq_true] at hcc
        exact ha (by simpa using hcc.2))
      (unsetFor u0 s.addresses)]
    unfold unsetFor
    rw [filter_ne_user_map u0 _
      (by
        intro a
        by_cases h : (a.userId == u0) = true
        · simp [h]
        · simp [h])
      (by
        intro a ha
        apply if_neg
        intro hcc
        exact ha (by simpa using hcc))
      s.addresses]
  exact ⟨hfst, hnb, hdef, hother⟩

/-- Witness for C4 (amended): on `dbE`, setting address 2 (which belongs
to user 5) as default succeeds, while naming the nonexistent address 99
fails yet still clears user 5's defaults. -/
theorem setDefaultAddress_behavior_witness :
    (setDefaultAddress 5 2 dbE).1 = true ∧
    ((setDefaultAddress 5 99 dbE).1 = false ∧
      (setDefaultAddress 5 99 dbE).2.addresses = unsetFor 5 dbE.addresses) :=
  ⟨(setDefaultAddress_behavior 5 2 dbE).1.mpr (by decide),
    (setDefaultAddress_behavior 5 99 dbE).2.1 (by decide)⟩

end Kampus
